import Mathlib

/-!
# Erudite — verification of the agent-orchestration / knowledge-graph UI layer

Shallow embedding of the Erudite repository's TypeScript routes and client
components, with theorems settling the frozen claims about them.  Strings
manipulated character-by-character in the source (split, substring, regex
scanning) are modelled as `List Char`; JavaScript `String.prototype.split`
with a one-character separator coincides with `List.splitOn` on the
character list, and `substring(0, n)` with `List.take n`.
-/

namespace Erudite

/-! ## Status-string encoding of the topic list (loading page)

The loading page (`src/ui/src/app/(sidebar)/loading/[slug]/page.tsx`)
parses a `topics_found:`-prefixed status with
`status.split(':')[1].split('|')`. -/

/-- The loading page's parse of a `topics_found` status string:
split the status at `:` and take the second segment, then split that
segment at `|`.  Mirrors
`const topicList = status.split(':')[1].split('|')`. -/
def parseTopicsFromStatus (status : List Char) : List (List Char) :=
  ((status.splitOn ':').getD 1 []).splitOn '|'

/-- Modelled from the spec: the orchestrator's encoding of the
`topics_found` status (the orchestrator backend is not part of the UI
sources) — the literal `topics_found:` followed by the topic names joined
with `|`. -/
def topicsStatusEncode (topics : List (List Char)) : List Char :=
  "topics_found:".toList ++ List.intercalate ['|'] topics

/-! ## Staircase truncation in the chat prompt builder

`src/ui/src/app/api/llm/route.ts` computes `len = 5000 / graphData.nodes.length`
and builds one prompt line per node with `node.content.substring(0, len)`.
JavaScript `substring` truncates a fractional bound toward zero, so the
per-node budget is `⌊5000 / n⌋`, i.e. `5000 / n` in `Nat`. -/

/-- A node of the graph payload sent to the chat endpoint: display name and
article content. -/
structure GNode where
  name : List Char
  content : List Char

/-- The per-node character budget `5000 / graphData.nodes.length`
(floored, as JavaScript `substring` truncates its fractional bound). -/
def perNodeBudget (nodes : List GNode) : Nat := 5000 / nodes.length

/-- The truncated content included for one node. -/
def nodeSnippet (nodes : List GNode) (n : GNode) : List Char :=
  n.content.take (perNodeBudget nodes)

/-- One prompt line per node:
`` `- ${node.name}: ${node.content.substring(0,len)}...` ``. -/
def nodeLine (nodes : List GNode) (n : GNode) : List Char :=
  "- ".toList ++ n.name ++ ": ".toList ++ nodeSnippet nodes n ++ "...".toList

/-- The node section of the chat prompt, one line per node, in payload
order (`graphData.nodes.map(...)`). -/
def promptNodeLines (nodes : List GNode) : List (List Char) :=
  nodes.map (nodeLine nodes)

/-! ## A small JSON value model

The routes parse request/response bodies with `await …, .json()` and build
bodies with object literals; we model JSON values with a small inductive. -/

/-- JSON values, as passed between the routes and the backend. -/
inductive JsonV where
  | str : String → JsonV
  | num : Int → JsonV
  | jbool : Bool → JsonV
  | obj : List (String × JsonV) → JsonV
  | arr : List JsonV → JsonV
  | null : JsonV

/-- Property access `data.k` on a parsed JSON value: defined (≠ `undefined`)
exactly for an object that carries the key. -/
def jsonLookup (v : JsonV) (k : String) : Option JsonV :=
  match v with
  | .obj kvs => kvs.lookup k
  | _ => none

/-- JavaScript truthiness of a JSON value. -/
def jsTruthy : JsonV → Bool
  | .str s => s ≠ ""
  | .num n => n ≠ 0
  | .jbool b => b
  | .obj _ => true
  | .arr _ => true
  | .null => false

/-- JavaScript truthiness of a possibly-`undefined` value. -/
def jsTruthyOpt : Option JsonV → Bool
  | some v => jsTruthy v
  | none => false

/-- JavaScript falsiness of a possibly-`undefined` string
(`!x` for `x : string | undefined`). -/
def jsFalsyStr : Option String → Bool
  | none => true
  | some s => s = ""

/-- `fetch` `Response.ok`: status in the inclusive range 200–299. -/
def respOk (st : Nat) : Bool := 200 ≤ st && st ≤ 299

/-! ## Middleware (`src/ui/src/middleware.ts`) -/

/-- Result of the Next.js middleware: a redirect to a path, or pass the
request through (`NextResponse.next()`). -/
inductive MwResponse where
  | redirect : String → MwResponse
  | next : MwResponse
deriving DecidableEq

/-- `String.prototype.startsWith`, modelled as a prefix check on the
character list. -/
def strStartsWith (p s : String) : Bool :=
  s.toList.take p.toList.length == p.toList

/-- `isAuthPage`: the path starts with `/login` or `/register`. -/
def isAuthPage (pathname : String) : Bool :=
  strStartsWith "/login" pathname || strStartsWith "/register" pathname

/-- The middleware body: redirect `/` and protected paths to `/login`
when no token cookie is present; redirect auth pages to `/` when one is;
otherwise continue. -/
def middleware (pathname : String) (hasToken : Bool) : MwResponse :=
  if pathname = "/" && !hasToken then .redirect "/login"
  else if !hasToken && !(isAuthPage pathname) then .redirect "/login"
  else if hasToken && isAuthPage pathname then .redirect "/"
  else .next

/-- The middleware `config.matcher`
`/((?!api|_next/static|_next/image|favicon.ico).*)`: every path except
those under `/api`, `/_next/static`, `/_next/image`, `/favicon.ico`. -/
def matcherMatches (pathname : String) : Bool :=
  !(strStartsWith "/api" pathname) && !(strStartsWith "/_next/static" pathname) &&
  !(strStartsWith "/_next/image" pathname) && !(strStartsWith "/favicon.ico" pathname)

/-! ## Auth route (`src/ui/src/app/api/auth/route.ts`) -/

/-- Parsed request body of the auth route. -/
structure AuthBody where
  action : Option String
  username : Option String
  password : Option String
  email : Option String

/-- Backend endpoints the auth route can call.  `Except.error` models the
`fetch` (or subsequent `.json()`) throwing, which the route's `catch`
turns into a 500. -/
structure AuthBackend where
  tokenEP : Option String → Option String → Except Unit (Nat × JsonV)
  registerEP : Option String → Option String → Option String →
    Except Unit (Nat × JsonV)

/-- Observable outcome of one auth-route invocation: HTTP status, JSON
body, cookies set and deleted on the response, and the backend endpoints
called, in call order. -/
structure AuthResult where
  status : Nat
  body : JsonV
  cookiesSet : List (String × JsonV)
  cookiesDeleted : List String
  calls : List String

/-- The catch-all 500 result of the auth route. -/
def authInternalError (calls : List String) : AuthResult :=
  { status := 500, body := .obj [("error", .str "Internal server error")],
    cookiesSet := [], cookiesDeleted := [], calls := calls }

/-- The auth route's `POST` handler. -/
def authPOST (be : AuthBackend) (body : AuthBody) : AuthResult :=
  if body.action = some "login" then
    match be.tokenEP body.username body.password with
    | .error _ => authInternalError ["auth/token"]
    | .ok (st, data) =>
      if jsTruthyOpt (jsonLookup data "access_token") then
        { status := 200, body := .obj [("message", .str "Login successful")],
          cookiesSet :=
            [("token", (jsonLookup data "access_token").getD .null),
             ("username", .str (body.username.getD ""))],
          cookiesDeleted := [], calls := ["auth/token"] }
      else
        { status := st, body := data, cookiesSet := [],
          cookiesDeleted := [], calls := ["auth/token"] }
  else if body.action = some "register" then
    match be.registerEP body.username body.password body.email with
    | .error _ => authInternalError ["auth/register"]
    | .ok (st, data) =>
      if st = 400 then
        { status := 400, body := .obj [("error", .str "User already exists")],
          cookiesSet := [], cookiesDeleted := [], calls := ["auth/register"] }
      else if st = 200 then
        match be.tokenEP body.username body.password with
        | .error _ => authInternalError ["auth/register", "auth/token"]
        | .ok (_, ldata) =>
          if jsTruthyOpt (jsonLookup ldata "access_token") then
            { status := 200,
              body := .obj
                [("message", .str "Registration successful, and login successful")],
              cookiesSet :=
                [("token", (jsonLookup ldata "access_token").getD .null),
                 ("username", .str (body.username.getD ""))],
              cookiesDeleted := [],
              calls := ["auth/register", "auth/token"] }
          else
            { status := 500,
              body := .obj [("error", .str "Login failed after registration")],
              cookiesSet := [], cookiesDeleted := [],
              calls := ["auth/register", "auth/token"] }
      else
        { status := st, body := data, cookiesSet := [],
          cookiesDeleted := [], calls := ["auth/register"] }
  else if body.action = some "logout" then
    { status := 200, body := .obj [("message", .str "Logout successful")],
      cookiesSet := [], cookiesDeleted := ["token", "username"], calls := [] }
  else
    { status := 400, body := .obj [("error", .str "Invalid action")],
      cookiesSet := [], cookiesDeleted := [], calls := [] }

/-! ## Create-knowledgebase route
(`src/ui/src/app/api/generate-knowledgebase/route.ts`) -/

/-- Parsed request body of the create-knowledgebase route: the query text
and the selected mode sent by the client (`handleSubmit` posts
`{ text, mode }`). -/
structure GenKbBody where
  text : Option String
  mode : Option String

/-- `JSON.stringify({title: body.text, user_id: userInfo.id})`: the body
forwarded to the backend.  A `user_id` of `undefined` (user info without
an `id`) is omitted by `JSON.stringify`. -/
def genKbForwardBody (text : String) (userInfo : JsonV) : List (String × JsonV) :=
  ("title", .str text) ::
    (match jsonLookup userInfo "id" with
     | some v => [("user_id", v)]
     | none => [])

/-- Observable outcome of the create-knowledgebase route: HTTP status,
JSON body, and the body forwarded to `POST {BACKEND_URL}/knowledge-graphs/`
(`none` when no forwarding request was issued). -/
structure GenKbResult where
  status : Nat
  body : JsonV
  forwarded : Option (List (String × JsonV))

/-- The create-knowledgebase route's `POST` handler.  `authz` is the
`authorization` request header; `me` is the `GET {BACKEND_URL}/auth/me`
outcome, `create` the `POST {BACKEND_URL}/knowledge-graphs/` outcome
(status paired with the parsed body, `none` when `.json()` throws;
`Except.error` when the fetch itself throws). -/
def generateKbPOST (authz : Option String)
    (me : Except Unit (Nat × Option JsonV))
    (create : List (String × JsonV) → Except Unit (Nat × Option JsonV))
    (body : GenKbBody) : GenKbResult :=
  match authz with
  | none =>
    { status := 401, body := .obj [("error", .str "Authorization token required")],
      forwarded := none }
  | some _ =>
    match me with
    | .error _ =>
      { status := 500,
        body := .obj [("error", .str "Failed to create knowledge graph")],
        forwarded := none }
    | .ok (mst, muser) =>
      if !(respOk mst) then
        { status := mst, body := .obj [("error", .str "Failed to get user info")],
          forwarded := none }
      else
        match muser with
        | none =>
          { status := 500,
            body := .obj [("error", .str "Failed to create knowledge graph")],
            forwarded := none }
        | some userInfo =>
          if jsFalsyStr body.text then
            { status := 400, body := .obj [("error", .str "Query is required")],
              forwarded := none }
          else
            let fwd := genKbForwardBody (body.text.getD "") userInfo
            match create fwd with
            | .error _ =>
              { status := 500,
                body := .obj [("error", .str "Failed to create knowledge graph")],
                forwarded := some fwd }
            | .ok (cst, cdata) =>
              match cdata with
              | none =>
                { status := 500,
                  body := .obj [("error", .str "Failed to create knowledge graph")],
                  forwarded := some fwd }
              | some data =>
                if respOk cst then
                  { status := 200, body := data, forwarded := some fwd }
                else
                  { status := cst, body := data, forwarded := some fwd }

/-! ## Graph-status route (`src/unnamed/part_003`, `/api/graph-status`) -/

/-- Parsed request body of the graph-status route. -/
structure StatusBody where
  uuid : Option String
  auth : Option String

/-- Observable outcome of the graph-status route. -/
structure StatusResult where
  status : Nat
  body : JsonV

/-- The graph-status route's `POST` handler.  `backend` models
`GET {BACKEND_URL}/knowledge-graphs/status/{uuid}` (status paired with the
parsed JSON body, `none` when `.json()` throws; `Except.error` when the
fetch itself throws). -/
def graphStatusPOST (backend : String → Except Unit (Nat × Option JsonV))
    (body : StatusBody) : StatusResult :=
  if jsFalsyStr body.uuid then
    { status := 400,
      body := .obj [("error", .str "UUID is required in the request body")] }
  else
    match backend (body.uuid.getD "") with
    | .error _ =>
      { status := 500, body := .obj [("error", .str "Failed to fetch graph status")] }
    | .ok (st, odata) =>
      match odata with
      | none =>
        { status := 500,
          body := .obj [("error", .str "Failed to fetch graph status")] }
      | some data =>
        if respOk st then { status := 200, body := data }
        else { status := st, body := data }

/-! ## Loading-page poller
(`src/ui/src/app/(sidebar)/loading/[slug]/page.tsx`) -/

/-- Client-visible state of the loading page. -/
structure PollState where
  currentStage : Nat
  graphTitle : List Char
  topics : List (List Char)

/-- A navigation decision of one poll tick. -/
inductive NavAction where
  | stay : NavAction
  | push : List Char → NavAction

/-- Outcome of one `fetch('/api/graph-status')` call as seen by
`pollStatus`: `fail` covers both a rejected fetch and a non-ok response
(the thrown `'Failed to fetch status'` lands in the same `catch`). -/
inductive PollFetch where
  | fail : PollFetch
  | ok : List Char → Option (List Char) → PollFetch

/-- The default heading shown while no title is known. -/
def defaultTitle : List Char := "Creating Knowledge Graph...".toList

/-- `String.prototype.startsWith` on character lists. -/
def startsWithChars (p s : List Char) : Bool := s.take p.length == p

/-- The poll period: `setInterval(pollStatus, 2000)`. -/
def pollIntervalMs : Nat := 2000

/-- One execution of `pollStatus`: errors are swallowed by the `catch`
(state unchanged); status `done` navigates to the graph page; the three
recognized intermediate statuses advance the displayed stage; anything
else leaves the stage unchanged. -/
def pollTick (slug : List Char) (st : PollState) : PollFetch → PollState × NavAction
  | .fail => (st, .stay)
  | .ok status title =>
    let st1 := { st with graphTitle :=
      match title with
      | some t => if t = [] then defaultTitle else t
      | none => defaultTitle }
    if status = "done".toList then (st1, .push ("/graph/".toList ++ slug))
    else if startsWithChars "topics_found:".toList status then
      ({ st1 with currentStage := 2, topics := parseTopicsFromStatus status }, .stay)
    else if status = "search_results_found".toList then
      ({ st1 with currentStage := 3 }, .stay)
    else if status = "articles_generated".toList then
      ({ st1 with currentStage := 4 }, .stay)
    else (st1, .stay)

/-! ## Orchestrator status trace (modelled from the spec) -/

/-- Status values the orchestrator writes for a graph (§4.6 of the spec);
`topicsFound` carries the pipe-encoded topic list. -/
inductive GStatus where
  | started : GStatus
  | topicsFound : List String → GStatus
  | searchResultsFound : GStatus
  | articlesGenerated : GStatus
  | done : GStatus
  | failed : GStatus

/-- Position of a status along the pipeline order, with the orthogonal
terminal `failed` above every pipeline stage. -/
def statusRank : GStatus → Nat
  | .started => 0
  | .topicsFound _ => 1
  | .searchResultsFound => 2
  | .articlesGenerated => 3
  | .done => 4
  | .failed => 5

/-- Outcome of one topic's pipeline: whether its retrieval succeeded and
whether its synthesis succeeded. -/
structure TopicOutcome where
  retrieved : Bool
  synthesized : Bool

/-- Outcome of one orchestrator run: the planner's topic list (`none`
when planning failed after retries) and the per-topic pipeline
outcomes. -/
structure OrchOutcome where
  planning : Option (List String)
  topicResults : List TopicOutcome

/-- Modelled from the spec: the Graph Orchestrator's per-graph sequence of
status writes (the orchestrator backend is not part of the UI sources).
§4.6: `started` at creation; planning failure → `failed`; otherwise
`topics_found`; all retrievals failing → `failed`; otherwise
`search_results_found`; all syntheses failing → `failed`; otherwise
`articles_generated` then (regardless of extractor outcome) `done`. -/
def orchestratorTrace (o : OrchOutcome) : List GStatus :=
  .started ::
    match o.planning with
    | none => [.failed]
    | some ts =>
      .topicsFound ts ::
        if o.topicResults.any (fun t => t.retrieved) then
          .searchResultsFound ::
            if o.topicResults.any (fun t => t.retrieved && t.synthesized) then
              [.articlesGenerated, .done]
            else [.failed]
        else [.failed]

/-! ## Citation rendering (`src/ui/src/components/doc-renderer.tsx`) -/

/-- Source metadata carried by a retrieved chunk. -/
structure SourceMeta where
  title : List Char
  url : List Char

/-- The `content` field of a chunk; `metadata` may be absent. -/
structure ChunkContent where
  metadata : Option SourceMeta

/-- A chunk of the article's source list; `content` may be absent. -/
structure Chunk where
  content : Option ChunkContent

/-- The optional-chain `chunks[index]?.content?.metadata`, with the array
access returning `undefined` out of bounds. -/
def chunkMeta (chunks : List Chunk) (i : Nat) : Option SourceMeta :=
  match chunks.get? i with
  | some ck => ck.content.bind (fun cc => cc.metadata)
  | none => none

/-- The renderer's whole guard for marker `[Sk]`:
`index = k − 1` must satisfy `index >= 0 && index < chunks.length` and
`chunks[index]?.content?.metadata` must be present.  `k = 0` makes the
JavaScript index `-1`, failing the first conjunct. -/
def citeLookup (chunks : List Chunk) (k : Nat) : Option SourceMeta :=
  if k = 0 then none else chunkMeta chunks (k - 1)

/-- The longest leading run of decimal digits of a character list,
paired with the remainder (the regex group `(\d+)` being greedy). -/
def leadingDigits : List Char → List Char × List Char
  | [] => ([], [])
  | x :: xs =>
    if x.isDigit then
      let p := leadingDigits xs
      (x :: p.1, p.2)
    else ([], x :: xs)

/-- `parseInt` on a run of decimal digits. -/
def natOfDigits (ds : List Char) : Nat :=
  ds.foldl (fun acc d => acc * 10 + (d.toNat - 48)) 0

/-- Try to match the citation regex `\[S(\d+)\]` at the start of the
input; on success return the digit group and the remainder after `]`. -/
def matchCitation : List Char → Option (List Char × List Char)
  | x :: y :: rest =>
    if x = '[' ∧ y = 'S' then
      if (leadingDigits rest).1 = [] then none
      else
        match (leadingDigits rest).2 with
        | c :: tail => if c = ']' then some ((leadingDigits rest).1, tail) else none
        | [] => none
    else none
  | _ => none

/-- The HTML the renderer substitutes for an accepted marker: the badge
rendered from the chunk's url and title, displaying `Source {index + 1}`. -/
def badgeHtml (index : Nat) (m : SourceMeta) : List Char :=
  "<a href=\"".toList ++ m.url ++ "\" title=\"".toList ++ m.title ++
    "\">Source ".toList ++ (Nat.repr (index + 1)).toList ++ "</a>".toList

/-- `leadingDigits` is a partition of its input. -/
theorem leadingDigits_append (l : List Char) :
    (leadingDigits l).1 ++ (leadingDigits l).2 = l := by
  induction l with
  | nil => rfl
  | cons a as ih =>
    by_cases ha : a.isDigit
    · simpa [leadingDigits, ha] using ih
    · simp [leadingDigits, ha]

/-- `matchCitation` consumes at least the three delimiter characters. -/
theorem matchCitation_length {l ds tail : List Char}
    (h : matchCitation l = some (ds, tail)) : tail.length < l.length := by
  match l with
  | [] => simp [matchCitation] at h
  | [x] => simp [matchCitation] at h
  | x :: y :: rest =>
    simp only [matchCitation] at h
    by_cases hx : x = '[' ∧ y = 'S'
    · rw [if_pos hx] at h
      have hsplit := leadingDigits_append rest
      by_cases h1 : (leadingDigits rest).1 = []
      · rw [if_pos h1] at h; cases h
      · rw [if_neg h1] at h
        rcases h2 : (leadingDigits rest).2 with _ | ⟨c, tail'⟩
        · rw [h2] at h; cases h
        · rw [h2] at h
          dsimp only at h
          by_cases hc : c = ']'
          · rw [if_pos hc] at h
            simp only [Option.some.injEq, Prod.mk.injEq] at h
            obtain ⟨rfl, rfl⟩ := h
            have hlen : (leadingDigits rest).1.length + (c :: tail').length =
                rest.length := by
              conv_rhs => rw [← hsplit]
              rw [h2, List.length_append]
            simp only [List.length_cons] at hlen ⊢
            omega
          · rw [if_neg hc] at h; cases h
    · rw [if_neg hx] at h
      cases h

/-- The renderer's global regex replacement: scan left to right; each
occurrence of `[Sk]` is replaced by the source badge when the guard
accepts `k`, and is echoed verbatim otherwise; all other characters are
echoed. -/
def renderCitations (chunks : List Chunk) : List Char → List Char
  | [] => []
  | x :: xs =>
    match hm : matchCitation (x :: xs) with
    | some p =>
      (match citeLookup chunks (natOfDigits p.1) with
       | some m => badgeHtml (natOfDigits p.1 - 1) m
       | none => '[' :: 'S' :: (p.1 ++ [']'])) ++ renderCitations chunks p.2
    | none => x :: renderCitations chunks xs
  termination_by l => l.length
  decreasing_by
  · exact matchCitation_length hm
  · simp

/-! ## Agent-thoughts stream consumption (`src/unnamed/part_006`) -/

/-- A parsed agent event `{type, content}`. -/
structure AgentMsg where
  mtype : String
  content : String

/-- The `switch (data.type)` formatting of one parsed event. -/
def formatAgentMsg (m : AgentMsg) : String :=
  if m.mtype = "thought" then "🤔 " ++ m.content ++ "\n"
  else if m.mtype = "action" then "🔍 " ++ m.content ++ "\n"
  else if m.mtype = "observation" then "📝 " ++ m.content ++ "\n"
  else if m.mtype = "error" then "❌ " ++ m.content ++ "\n"
  else m.content ++ "\n"

/-- `!line.trim()`: the line is blank (whitespace only). -/
def isBlankLine (l : List Char) : Bool := l.all (fun x => x.isWhitespace)

/-- What one complete line contributes: nothing when blank, nothing when
`JSON.parse` throws (the `catch` only logs), one formatted message
otherwise.  `parse` abstracts `JSON.parse` plus field extraction. -/
def processLine (parse : List Char → Option AgentMsg) (l : List Char) :
    Option String :=
  if isBlankLine l then none
  else (parse l).map formatAgentMsg

/-- The reader loop of `AgentThoughts.handleSubmit`: per chunk, split the
buffered text at newlines, keep the trailing incomplete line as the new
buffer, and process every complete line in order. -/
def consumeChunks (parse : List Char → Option AgentMsg) :
    List (List Char) → List Char → List String
  | [], _buffer => []
  | chunk :: rest, buffer =>
    let lines := (buffer ++ chunk).splitOn '\n'
    lines.dropLast.filterMap (processLine parse) ++
      consumeChunks parse rest (lines.getLastD [])

/-- The whole streaming handler: the displayed messages in order, and the
final value of the `isStreaming` flag (the `finally` clause clears it). -/
def handleStream (parse : List Char → Option AgentMsg)
    (chunks : List (List Char)) : List String × Bool :=
  (consumeChunks parse chunks [], false)

end Erudite

namespace Erudite

/-! ### Helper lemmas -/

theorem not_mem_intercalate_single {c x : Char} (hx : c ≠ x)
    {ls : List (List Char)} (h : ∀ l ∈ ls, c ∉ l) :
    c ∉ List.intercalate [x] ls := by
  induction ls with
  | nil => simp [List.intercalate]
  | cons a t ih =>
    cases t with
    | nil => simpa [List.intercalate] using h a (by simp)
    | cons b t' =>
      have ha := h a (by simp)
      have ht : ∀ l ∈ b :: t', c ∉ l := fun l hl => h l (by simp [hl])
      have hrec := ih ht
      have hstep : List.intercalate [x] (a :: b :: t') =
          a ++ x :: List.intercalate [x] (b :: t') := by
        simp [List.intercalate, List.intersperse]
      rw [hstep]
      simp only [List.mem_append, List.mem_cons]
      rintro (hc | hc | hc)
      · exact ha hc
      · exact hx hc
      · exact hrec hc

theorem splitOn_no_sep {c : Char} {l : List Char} (h : c ∉ l) :
    l.splitOn c = [l] := by
  unfold List.splitOn
  refine List.splitOnP_eq_single _ _ ?_
  intro x hx
  simp only [beq_iff_eq]
  intro he
  exact h (he ▸ hx)

theorem splitOn_sep_append {c : Char} {a : List Char} (h : c ∉ a)
    (b : List Char) : (a ++ c :: b).splitOn c = a :: b.splitOn c := by
  unfold List.splitOn
  refine List.splitOnP_first _ _ ?_ c (by simp) b
  intro x hx
  simp only [beq_iff_eq]
  intro he
  exact h (he ▸ hx)

/-! ### C2 — round-trip of the `topics_found` status encoding -/

/-- C2: for every non-empty list of topic names containing neither `:`
nor `|`, encoding the status as `"topics_found:"` followed by the names
joined with `|`, then applying the loading page's parse (split at `:`,
take the second segment, split it at `|`), yields the original topic
list in order. -/
theorem topics_status_roundtrip (topics : List (List Char))
    (hne : topics ≠ [])
    (hclean : ∀ t ∈ topics, ':' ∉ t ∧ '|' ∉ t) :
    parseTopicsFromStatus (topicsStatusEncode topics) = topics := by
  have henc : topicsStatusEncode topics =
      "topics_found".toList ++ ':' :: List.intercalate ['|'] topics := by
    simp [topicsStatusEncode]
  have hprefix : ':' ∉ "topics_found".toList := by decide
  have hbody : ':' ∉ List.intercalate ['|'] topics :=
    not_mem_intercalate_single (by decide) (fun l hl => (hclean l hl).1)
  have hsplit : (topicsStatusEncode topics).splitOn ':' =
      ["topics_found".toList, List.intercalate ['|'] topics] := by
    rw [henc, splitOn_sep_append hprefix, splitOn_no_sep hbody]
  unfold parseTopicsFromStatus
  rw [hsplit]
  simpa using List.splitOn_intercalate topics '|' (fun l hl => (hclean l hl).2) hne

/-- Witness for `topics_status_roundtrip` at the concrete topic list
`["Qubits", "Quantum Gates"]`. -/
theorem topics_status_roundtrip_witness :
    parseTopicsFromStatus
        (topicsStatusEncode ["Qubits".toList, "Quantum Gates".toList]) =
      ["Qubits".toList, "Quantum Gates".toList] :=
  topics_status_roundtrip ["Qubits".toList, "Quantum Gates".toList]
    (by decide) (by decide)

/-! ### C3 — staircase truncation in the chat prompt builder -/

/-- C3: for a graph payload with `n ≥ 1` nodes, the prompt's node section
contains one line per node in payload order, each node contributing only
the first `⌊5000 / n⌋` characters of its content, and the total included
content is at most the fixed 5000-character budget. -/
theorem staircase_truncation (nodes : List GNode) (hne : nodes ≠ []) :
    promptNodeLines nodes = nodes.map (nodeLine nodes) ∧
    (∀ n ∈ nodes, (nodeSnippet nodes n).length ≤ 5000 / nodes.length) ∧
    (nodes.map (fun n => (nodeSnippet nodes n).length)).sum ≤ 5000 := by
  refine ⟨rfl, ?_, ?_⟩
  · intro n _
    simp [nodeSnippet, perNodeBudget]
  · have hbound : ∀ x ∈ nodes.map (fun n => (nodeSnippet nodes n).length),
        x ≤ 5000 / nodes.length := by
      intro x hx
      rcases List.mem_map.mp hx with ⟨n, _, rfl⟩
      simp [nodeSnippet, perNodeBudget]
    have h1 := List.sum_le_card_nsmul
      (nodes.map (fun n => (nodeSnippet nodes n).length))
      (5000 / nodes.length) hbound
    calc (nodes.map (fun n => (nodeSnippet nodes n).length)).sum
        ≤ (nodes.map (fun n => (nodeSnippet nodes n).length)).length •
            (5000 / nodes.length) := h1
      _ = nodes.length * (5000 / nodes.length) := by
            rw [List.length_map, smul_eq_mul]
      _ = 5000 / nodes.length * nodes.length := Nat.mul_comm _ _
      _ ≤ 5000 := Nat.div_mul_le_self 5000 nodes.length

/-! ### C4 — citation rendering is bounds-checked and total -/

theorem leadingDigits_of_digits (ds : List Char)
    (h : ∀ d ∈ ds, d.isDigit = true) (y : Char) (hy : y.isDigit = false)
    (rest : List Char) :
    leadingDigits (ds ++ y :: rest) = (ds, y :: rest) := by
  induction ds with
  | nil => simp [leadingDigits, hy]
  | cons d dtl ih =>
    have hd : d.isDigit = true := h d (by simp)
    simp only [List.cons_append, leadingDigits, hd, if_true]
    simp [ih (fun e he => h e (by simp [he]))]

theorem renderCitations_step (chunks : List Chunk) (x : Char)
    (xs ds tail : List Char)
    (hm : matchCitation (x :: xs) = some (ds, tail)) :
    renderCitations chunks (x :: xs) =
      (match citeLookup chunks (natOfDigits ds) with
       | some m => badgeHtml (natOfDigits ds - 1) m
       | none => '[' :: 'S' :: (ds ++ [']'])) ++ renderCitations chunks tail := by
  rw [renderCitations.eq_def]
  dsimp only
  split
  · next p hp =>
    rw [hm] at hp
    injection hp with h3
    subst h3
    rfl
  · next hp =>
    rw [hm] at hp
    cases hp

theorem renderCitations_skip (chunks : List Chunk) (x : Char) (xs : List Char)
    (hm : matchCitation (x :: xs) = none) :
    renderCitations chunks (x :: xs) = x :: renderCitations chunks xs := by
  rw [renderCitations.eq_def]
  dsimp only
  split
  · next p hp =>
    rw [hm] at hp
    cases hp
  · rfl

theorem citeLookup_iff (chunks : List Chunk) (k : Nat) :
    (citeLookup chunks k).isSome = true ↔
      1 ≤ k ∧ k - 1 < chunks.length ∧
        ∃ ck cc m, chunks.get? (k - 1) = some ck ∧ ck.content = some cc ∧
          cc.metadata = some m := by
  constructor
  · intro hsome
    have hk : k ≠ 0 := by
      intro h0
      rw [h0] at hsome
      simp [citeLookup] at hsome
    rw [show citeLookup chunks k = chunkMeta chunks (k - 1) by
      simp [citeLookup, hk]] at hsome
    unfold chunkMeta at hsome
    cases hg : chunks.get? (k - 1) with
    | none => rw [hg] at hsome; simp at hsome
    | some ck =>
      rw [hg] at hsome
      dsimp only at hsome
      cases hc : ck.content with
      | none => rw [hc] at hsome; simp at hsome
      | some cc =>
        rw [hc] at hsome
        simp only [Option.bind] at hsome
        cases hmt : cc.metadata with
        | none => rw [hmt] at hsome; simp at hsome
        | some m =>
          have hlt : k - 1 < chunks.length := by
            by_contra hge
            rw [List.get?_eq_none.mpr (by omega)] at hg
            cases hg
          exact ⟨Nat.one_le_iff_ne_zero.mpr hk, hlt, ck, cc, m, rfl, hc, hmt⟩
  · rintro ⟨hk, hlt, ck, cc, m, hg, hc, hmt⟩
    rw [show citeLookup chunks k = chunkMeta chunks (k - 1) by
      simp [citeLookup]
      omega]
    unfold chunkMeta
    simp only [List.get?_eq_getElem?] at hg
    simp [hg, hc, hmt]

/-- C4: rendering is total and bounds-checked — a marker `[Sk]` (digits
`ds`, `k = parseInt ds`) is replaced by the source badge built from chunk
`k − 1` exactly when the guard `citeLookup` accepts `k`, and is left
verbatim otherwise; `citeLookup` accepts `k` precisely when `1 ≤ k`,
`k − 1` is inside the chunk list, and that chunk carries
`content.metadata`; every non-marker character is echoed unchanged, so no
input ever reads outside the chunk list. -/
theorem citation_rendering (chunks : List Chunk) (ds rest : List Char)
    (hne : ds ≠ []) (hdig : ∀ d ∈ ds, d.isDigit = true) :
    renderCitations chunks ('[' :: 'S' :: (ds ++ ']' :: rest)) =
      (match citeLookup chunks (natOfDigits ds) with
       | some m => badgeHtml (natOfDigits ds - 1) m
       | none => '[' :: 'S' :: (ds ++ [']'])) ++ renderCitations chunks rest ∧
    (∀ k, (citeLookup chunks k).isSome = true ↔
      1 ≤ k ∧ k - 1 < chunks.length ∧
        ∃ ck cc m, chunks.get? (k - 1) = some ck ∧ ck.content = some cc ∧
          cc.metadata = some m) ∧
    (∀ x xs, matchCitation (x :: xs) = none →
      renderCitations chunks (x :: xs) = x :: renderCitations chunks xs) := by
  refine ⟨?_, citeLookup_iff chunks, renderCitations_skip chunks⟩
  have hy : (']' : Char).isDigit = false := by decide
  have hld := leadingDigits_of_digits ds hdig ']' hy rest
  have hm : matchCitation ('[' :: 'S' :: (ds ++ ']' :: rest)) =
      some (ds, rest) := by
    simp only [matchCitation, hld]
    rw [if_neg hne]
    simp
  exact renderCitations_step chunks '[' ('S' :: (ds ++ ']' :: rest)) ds rest hm

/-- Witness for `citation_rendering`: the marker `[S1]` against a
one-chunk list carrying metadata, and the marker text `[S2]` against the
same list (out of range, left verbatim) both follow the guard. -/
theorem citation_rendering_witness :
    renderCitations [⟨some ⟨some ⟨"T".toList, "http://u".toList⟩⟩⟩]
        ('[' :: 'S' :: (['1'] ++ ']' :: [])) =
      (match citeLookup [⟨some ⟨some ⟨"T".toList, "http://u".toList⟩⟩⟩]
          (natOfDigits ['1']) with
       | some m => badgeHtml (natOfDigits ['1'] - 1) m
       | none => '[' :: 'S' :: (['1'] ++ [']'])) ++
        renderCitations [⟨some ⟨some ⟨"T".toList, "http://u".toList⟩⟩⟩] [] ∧
    (∀ k, (citeLookup [⟨some ⟨some ⟨"T".toList, "http://u".toList⟩⟩⟩] k).isSome =
        true ↔
      1 ≤ k ∧
        k - 1 < (([⟨some ⟨some ⟨"T".toList, "http://u".toList⟩⟩⟩] :
            List Chunk)).length ∧
        ∃ ck cc m,
          ([⟨some ⟨some ⟨"T".toList, "http://u".toList⟩⟩⟩] :
              List Chunk).get? (k - 1) = some ck ∧
          ck.content = some cc ∧ cc.metadata = some m) ∧
    (∀ x xs, matchCitation (x :: xs) = none →
      renderCitations [⟨some ⟨some ⟨"T".toList, "http://u".toList⟩⟩⟩] (x :: xs) =
        x :: renderCitations [⟨some ⟨some ⟨"T".toList, "http://u".toList⟩⟩⟩] xs) :=
  citation_rendering [⟨some ⟨some ⟨"T".toList, "http://u".toList⟩⟩⟩]
    ['1'] [] (by decide) (by decide)

/-! ### C9 — middleware authentication invariant -/

/-- C9: on every matched request, absence of the token cookie redirects to
`/login` unless the path is an auth page; presence of the token on an auth
page redirects to `/`; in all other cases the request proceeds — so no
matched non-auth page is ever served without a token. -/
theorem middleware_auth_invariant (p : String) (t : Bool)
    (hm : matcherMatches p = true) :
    middleware p t =
      (if t = false ∧ isAuthPage p = false then MwResponse.redirect "/login"
       else if t = true ∧ isAuthPage p = true then MwResponse.redirect "/"
       else MwResponse.next) := by
  clear hm
  unfold middleware
  by_cases hp : p = "/"
  · subst hp
    have ha : isAuthPage "/" = false := by decide
    cases t <;> simp [ha]
  · cases t <;> by_cases ha : isAuthPage p <;> simp [hp, ha]

/-- Witness for `middleware_auth_invariant` at the matched non-auth path
`/dashboard` without a token. -/
theorem middleware_auth_invariant_witness :
    middleware "/dashboard" false =
      (if false = false ∧ isAuthPage "/dashboard" = false then
        MwResponse.redirect "/login"
       else if false = true ∧ isAuthPage "/dashboard" = true then
        MwResponse.redirect "/"
       else MwResponse.next) :=
  middleware_auth_invariant "/dashboard" false (by decide)

/-! ### C10 — logout is local and touches only its two cookies -/

/-- C10: every auth-route POST whose body carries action `logout` —
whatever the other fields — returns 200 with message `Logout successful`,
deletes exactly the `token` and `username` cookies, sets no cookie, and
performs no backend call. -/
theorem logout_local (be : AuthBackend) (body : AuthBody)
    (h : body.action = some "logout") :
    authPOST be body =
      { status := 200, body := .obj [("message", .str "Logout successful")],
        cookiesSet := [], cookiesDeleted := ["token", "username"],
        calls := [] } := by
  have h1 : ¬body.action = some "login" := by rw [h]; decide
  have h2 : ¬body.action = some "register" := by rw [h]; decide
  unfold authPOST
  rw [if_neg h1, if_neg h2, if_pos h]

/-- Witness for `logout_local` at a concrete logout request carrying
extra fields, against an arbitrary concrete backend. -/
theorem logout_local_witness :
    authPOST ⟨fun _ _ => .error (), fun _ _ _ => .error ()⟩
        ⟨some "logout", some "alice", some "pw", some "a@b.c"⟩ =
      { status := 200,
        body := .obj [("message", .str "Logout successful")],
        cookiesSet := [], cookiesDeleted := ["token", "username"],
        calls := [] } :=
  logout_local ⟨fun _ _ => .error (), fun _ _ _ => .error ()⟩
    ⟨some "logout", some "alice", some "pw", some "a@b.c"⟩ rfl

/-! ### C5 — status monotonicity per graph (spec-modelled orchestrator) -/

/-- C5: for every orchestrator outcome, the sequence of statuses written
for a graph is strictly increasing along the pipeline order (with `failed`
terminal above every stage), so no write ever regresses a status — in
particular `done` is never followed by `articles_generated`. -/
theorem status_monotonic (o : OrchOutcome) :
    (orchestratorTrace o).Pairwise (fun a b => statusRank a < statusRank b) ∧
    (orchestratorTrace o).Pairwise
      (fun a b => ¬(a = GStatus.done ∧ b = GStatus.articlesGenerated)) := by
  obtain ⟨pl, tr⟩ := o
  cases pl with
  | none => simp [orchestratorTrace, statusRank, List.pairwise_cons]
  | some ts =>
    by_cases hr : tr.any (fun t => t.retrieved)
    · by_cases hs : tr.any (fun t => t.retrieved && t.synthesized)
      · simp [orchestratorTrace, hr, hs, statusRank, List.pairwise_cons]
      · simp [orchestratorTrace, hr, hs, statusRank, List.pairwise_cons]
    · simp [orchestratorTrace, hr, statusRank, List.pairwise_cons]

/-! ### C8 — the loading-page poller leaves the page only on `done` -/

/-- C8: a poll tick whose status is anything other than `done` (including
`failed` and `started`) performs no navigation; the displayed stage index
changes only for the three recognized intermediate statuses; a failed
fetch leaves the state unchanged; and the poll interval is the constant
2000 ms. -/
theorem poller_only_done_navigates (slug : List Char) (st : PollState)
    (f : PollFetch) :
    (∀ status title, f = .ok status title → status ≠ "done".toList →
      (pollTick slug st f).2 = NavAction.stay ∧
      (pollTick slug st f).1.currentStage =
        (if startsWithChars "topics_found:".toList status then 2
         else if status = "search_results_found".toList then 3
         else if status = "articles_generated".toList then 4
         else st.currentStage)) ∧
    (f = .fail → pollTick slug st f = (st, .stay)) ∧
    pollIntervalMs = 2000 := by
  refine ⟨?_, ?_, rfl⟩
  · rintro status title rfl hne
    by_cases h1 : startsWithChars "topics_found:".toList status
    · simp only [pollTick]
      rw [if_neg hne, if_pos h1]
      refine ⟨rfl, ?_⟩
      rw [if_pos h1]
    · by_cases h2 : status = "search_results_found".toList
      · simp only [pollTick]
        rw [if_neg hne, if_neg h1, if_pos h2]
        refine ⟨rfl, ?_⟩
        rw [if_neg h1, if_pos h2]
      · by_cases h3 : status = "articles_generated".toList
        · simp only [pollTick]
          rw [if_neg hne, if_neg h1, if_neg h2, if_pos h3]
          refine ⟨rfl, ?_⟩
          rw [if_neg h1, if_neg h2, if_pos h3]
        · simp only [pollTick]
          rw [if_neg hne, if_neg h1, if_neg h2, if_neg h3]
          refine ⟨rfl, ?_⟩
          rw [if_neg h1, if_neg h2, if_neg h3]
  · rintro rfl
    rfl

/-- Witness for `poller_only_done_navigates` at the concrete status
`failed`: no navigation and no stage change. -/
theorem poller_only_done_navigates_witness :
    (pollTick "u1".toList ⟨0, [], []⟩ (.ok "failed".toList none)).2 =
        NavAction.stay ∧
    (pollTick "u1".toList ⟨0, [], []⟩ (.ok "failed".toList none)).1.currentStage =
      (if startsWithChars "topics_found:".toList "failed".toList then 2
       else if "failed".toList = "search_results_found".toList then 3
       else if "failed".toList = "articles_generated".toList then 4
       else (0 : Nat)) :=
  (poller_only_done_navigates "u1".toList ⟨0, [], []⟩
      (.ok "failed".toList none)).1 "failed".toList none rfl (by decide)

/-! ### C6 — graph-status route validation and pass-through -/

/-- C6 counterexample to the claim as stated: a backend answering with the
success code 201 is reported to the caller under status 200, not under the
backend's status code. -/
theorem graph_status_code_cex :
    (graphStatusPOST
        (fun _ => .ok (201, some (.obj [("status", .str "done")])))
        ⟨some "u1", some "tok"⟩).status = 200 ∧ (200 : Nat) ≠ 201 := by
  exact ⟨rfl, by decide⟩

/-- C6 (amended): the route responds 400 with
`UUID is required in the request body` exactly when the body's uuid is
absent or falsy; otherwise it forwards the lookup and returns the
backend's JSON body — under status 200 when the backend code is a success
(2xx) and under the backend's own code otherwise — responding 500 when the
forwarding fetch or its body parse throws. -/
theorem graph_status_route (backend : String → Except Unit (Nat × Option JsonV))
    (body : StatusBody) :
    (jsFalsyStr body.uuid = true →
      graphStatusPOST backend body =
        ⟨400, .obj [("error", .str "UUID is required in the request body")]⟩) ∧
    (∀ u, body.uuid = some u → u ≠ "" →
      (backend u = .error () →
        graphStatusPOST backend body =
          ⟨500, .obj [("error", .str "Failed to fetch graph status")]⟩) ∧
      (∀ stc data, backend u = .ok (stc, some data) →
        graphStatusPOST backend body =
          ⟨if respOk stc then 200 else stc, data⟩) ∧
      (∀ stc, backend u = .ok (stc, none) →
        graphStatusPOST backend body =
          ⟨500, .obj [("error", .str "Failed to fetch graph status")]⟩)) := by
  constructor
  · intro h
    unfold graphStatusPOST
    rw [if_pos h]
  · intro u hu hne
    have hf : jsFalsyStr body.uuid = false := by
      rw [hu]; simpa [jsFalsyStr] using hne
    refine ⟨?_, ?_, ?_⟩
    · intro hb
      unfold graphStatusPOST
      rw [if_neg (by simp [hf]), hu]
      simp [hb]
    · intro stc data hb
      unfold graphStatusPOST
      rw [if_neg (by simp [hf]), hu]
      simp only [Option.getD_some, hb]
      by_cases hok : respOk stc <;> simp [hok]
    · intro stc hb
      unfold graphStatusPOST
      rw [if_neg (by simp [hf]), hu]
      simp [hb]

/-- Witness for `graph_status_route`: a missing uuid yields the 400
validation error, and a present uuid with an ok backend passes the body
through. -/
theorem graph_status_route_witness :
    graphStatusPOST (fun _ => .error ()) ⟨none, none⟩ =
      ⟨400, .obj [("error", .str "UUID is required in the request body")]⟩ ∧
    graphStatusPOST (fun _ => .ok (200, some (.obj [("status", .str "started")])))
        ⟨some "u1", none⟩ =
      ⟨if respOk 200 then 200 else 200, .obj [("status", .str "started")]⟩ :=
  ⟨(graph_status_route (fun _ => .error ()) ⟨none, none⟩).1 rfl,
   ((graph_status_route
        (fun _ => .ok (200, some (.obj [("status", .str "started")])))
        ⟨some "u1", none⟩).2 "u1" rfl (by decide)).2.1 200
      (.obj [("status", .str "started")]) rfl⟩

/-! ### C1 — createGraph forwarding -/

/-- C1 counterexample to the claim as stated: for a fully authorized
request carrying both a query text and a mode, the body forwarded to the
backend is exactly `{title, user_id}` — it has no `mode` key at all. -/
theorem create_graph_mode_cex :
    (generateKbPOST (some "Bearer tok")
        (.ok (200, some (.obj [("id", .num 1)])))
        (fun _ => .ok (200, some (.obj [("uuid", .str "abc123")])))
        ⟨some "quantum computing", some "explorer"⟩).forwarded =
      some [("title", .str "quantum computing"), ("user_id", .num 1)] ∧
    List.lookup "mode"
        [("title", JsonV.str "quantum computing"), ("user_id", JsonV.num 1)] =
      none ∧
    (generateKbPOST (some "Bearer tok")
        (.ok (200, some (.obj [("id", .num 1)])))
        (fun _ => .ok (200, some (.obj [("uuid", .str "abc123")])))
        ⟨some "quantum computing", some "explorer"⟩).body =
      .obj [("uuid", .str "abc123")] :=
  ⟨rfl, rfl, rfl⟩

/-- C1 (amended): for every authorized POST whose body carries a non-empty
query text, the request forwarded to the backend contains the query (as
`title`) and the requesting user's id (as `user_id`) and nothing else — in
particular no `mode` key, the selected mode being dropped — and on a
successful backend response the backend's JSON (carrying the assigned
uuid) is returned as the route's 200 response. -/
theorem create_graph_forwarding (tok : String) (mst : Nat)
    (userInfo uid : JsonV)
    (create : List (String × JsonV) → Except Unit (Nat × Option JsonV))
    (q : String) (mode : Option String)
    (hok : respOk mst = true)
    (hid : jsonLookup userInfo "id" = some uid)
    (hq : q ≠ "") :
    (generateKbPOST (some tok) (.ok (mst, some userInfo)) create
        ⟨some q, mode⟩).forwarded =
      some [("title", .str q), ("user_id", uid)] ∧
    List.lookup "mode" [("title", JsonV.str q), ("user_id", uid)] = none ∧
    (∀ cst data,
      create [("title", .str q), ("user_id", uid)] = .ok (cst, some data) →
      respOk cst = true →
      (generateKbPOST (some tok) (.ok (mst, some userInfo)) create
          ⟨some q, mode⟩).status = 200 ∧
      (generateKbPOST (some tok) (.ok (mst, some userInfo)) create
          ⟨some q, mode⟩).body = data) := by
  have hfb : genKbForwardBody q userInfo =
      [("title", .str q), ("user_id", uid)] := by
    unfold genKbForwardBody
    rw [hid]
  have hnf : jsFalsyStr (some q) = false := by simpa [jsFalsyStr] using hq
  refine ⟨?_, rfl, ?_⟩
  · simp only [generateKbPOST, hok, hnf, Bool.not_true, Bool.false_eq_true,
      if_false, Option.getD_some, hfb]
    rcases create [("title", .str q), ("user_id", uid)] with _ | ⟨cst, cdata⟩
    · rfl
    · rcases cdata with _ | data
      · rfl
      · by_cases hc : respOk cst <;> simp [hc]
  · intro cst data hcre hcok
    simp only [generateKbPOST, hok, hnf, Bool.not_true, Bool.false_eq_true,
      if_false, Option.getD_some, hfb, hcre, hcok]
    exact ⟨rfl, rfl⟩

/-- Witness for `create_graph_forwarding` at a concrete authorized
request. -/
theorem create_graph_forwarding_witness :
    (generateKbPOST (some "Bearer tok")
        (.ok (200, some (.obj [("id", .num 7)])))
        (fun _ => .ok (200, some (.obj [("uuid", .str "u-77")])))
        ⟨some "black holes", some "pioneer"⟩).forwarded =
      some [("title", .str "black holes"), ("user_id", .num 7)] ∧
    List.lookup "mode"
        [("title", JsonV.str "black holes"), ("user_id", JsonV.num 7)] = none ∧
    (∀ cst data,
      (Except.ok (200, some (JsonV.obj [("uuid", JsonV.str "u-77")])) :
          Except Unit (Nat × Option JsonV)) = .ok (cst, some data) →
      respOk cst = true →
      (generateKbPOST (some "Bearer tok")
          (.ok (200, some (.obj [("id", .num 7)])))
          (fun _ => .ok (200, some (.obj [("uuid", .str "u-77")])))
          ⟨some "black holes", some "pioneer"⟩).status = 200 ∧
      (generateKbPOST (some "Bearer tok")
          (.ok (200, some (.obj [("id", .num 7)])))
          (fun _ => .ok (200, some (.obj [("uuid", .str "u-77")])))
          ⟨some "black holes", some "pioneer"⟩).body = data) :=
  create_graph_forwarding "Bearer tok" 200 (.obj [("id", .num 7)]) (.num 7)
    (fun _ => .ok (200, some (.obj [("uuid", .str "u-77")])))
    "black holes" (some "pioneer") rfl rfl (by decide)

/-! ### C7 — tagged-event stream consumption -/

theorem splitOn_cons (c x : Char) (xs : List Char) :
    (x :: xs).splitOn c =
      if x = c then [] :: xs.splitOn c
      else (xs.splitOn c).modifyHead (List.cons x) := by
  unfold List.splitOn
  rw [List.splitOnP_cons]
  by_cases h : x = c
  · simp [h]
  · simp [h]

theorem splitOn_ne_nil (c : Char) (l : List Char) : l.splitOn c ≠ [] := by
  unfold List.splitOn
  exact List.splitOnP_ne_nil _ l

theorem splitOn_sep_not_mem (c : Char) (l : List Char) :
    ∀ w ∈ l.splitOn c, c ∉ w := by
  induction l with
  | nil =>
    intro w hw
    simp only [List.splitOn_nil, List.mem_singleton] at hw
    subst hw
    simp
  | cons x xs ih =>
    intro w hw
    rw [splitOn_cons] at hw
    by_cases h : x = c
    · rw [if_pos h] at hw
      rcases List.mem_cons.mp hw with rfl | hw'
      · simp
      · exact ih w hw'
    · rw [if_neg h] at hw
      rcases hs : xs.splitOn c with _ | ⟨hd, tl⟩
      · exact absurd hs (splitOn_ne_nil c xs)
      · rw [hs] at hw
        simp only [List.modifyHead] at hw
        rcases List.mem_cons.mp hw with rfl | hw'
        · intro hc
          rcases List.mem_cons.mp hc with hcx | hc'
          · exact h hcx.symm
          · exact ih hd (by rw [hs]; exact List.mem_cons_self hd tl) hc'
        · exact ih w (by rw [hs]; exact List.mem_cons.mpr (Or.inr hw'))

theorem getLastD_mem_of_ne_nil :
    ∀ {l : List (List Char)}, l ≠ [] → ∀ d, l.getLastD d ∈ l := by
  intro l
  induction l with
  | nil => intro h; exact absurd rfl h
  | cons a t ih =>
    intro _ d
    cases t with
    | nil => simp
    | cons b t' =>
      rw [List.getLastD_cons]
      exact List.mem_cons.mpr (Or.inr (ih (by simp) a))

theorem splitOn_append (c : Char) (a b : List Char) :
    (a ++ b).splitOn c =
      (a.splitOn c).dropLast ++
        ((a.splitOn c).getLastD [] ++ (b.splitOn c).headI) ::
          (b.splitOn c).tail := by
  induction a with
  | nil =>
    rcases hb : b.splitOn c with _ | ⟨h1, t1⟩
    · exact absurd hb (splitOn_ne_nil c b)
    · simp [hb]
  | cons x xs ih =>
    rw [List.cons_append, splitOn_cons, splitOn_cons]
    by_cases hx : x = c
    · rw [if_pos hx, if_pos hx, ih]
      rcases hs : xs.splitOn c with _ | ⟨h1, t1⟩
      · exact absurd hs (splitOn_ne_nil c xs)
      · simp [List.getLastD_cons]
    · rw [if_neg hx, if_neg hx, ih]
      rcases hs : xs.splitOn c with _ | ⟨h1, t1⟩
      · exact absurd hs (splitOn_ne_nil c xs)
      · cases t1 with
        | nil => simp [List.modifyHead]
        | cons h2 t2 => simp [List.modifyHead, List.getLastD_cons]

theorem consumeChunks_eq (parse : List Char → Option AgentMsg)
    (chunks : List (List Char)) :
    ∀ buffer : List Char, '\n' ∉ buffer →
      consumeChunks parse chunks buffer =
        ((buffer ++ chunks.flatten).splitOn '\n').dropLast.filterMap
          (processLine parse) := by
  induction chunks with
  | nil =>
    intro buffer hb
    rw [consumeChunks, List.flatten_nil, List.append_nil, splitOn_no_sep hb]
    rfl
  | cons chunk rest ih =>
    intro buffer hb
    rw [consumeChunks]
    have hb' : '\n' ∉ ((buffer ++ chunk).splitOn '\n').getLastD [] :=
      splitOn_sep_not_mem '\n' (buffer ++ chunk) _
        (getLastD_mem_of_ne_nil (splitOn_ne_nil '\n' (buffer ++ chunk)) [])
    rw [ih _ hb', List.flatten_cons, ← List.append_assoc,
      splitOn_append '\n' (buffer ++ chunk) rest.flatten,
      splitOn_append '\n' (((buffer ++ chunk).splitOn '\n').getLastD [])
        rest.flatten,
      splitOn_no_sep hb']
    rcases hr : rest.flatten.splitOn '\n' with _ | ⟨rh, rt⟩
    · exact absurd hr (splitOn_ne_nil '\n' rest.flatten)
    · simp [List.filterMap_append]

/-- C7: consuming a finite newline-delimited stream displays, in stream
order, exactly one formatted message per complete line that is non-blank
and parses — prefixed per event type by `formatAgentMsg` — while blank or
unparsable lines contribute nothing without aborting the remainder, and
the streaming flag ends cleared. -/
theorem stream_tagged_events (parse : List Char → Option AgentMsg)
    (chunks : List (List Char)) :
    handleStream parse chunks =
      ((chunks.flatten.splitOn '\n').dropLast.filterMap
          (fun l => if isBlankLine l then none
                    else (parse l).map formatAgentMsg), false) := by
  unfold handleStream
  rw [consumeChunks_eq parse chunks [] (by simp)]
  rfl

/-- Witness for `staircase_truncation` at a concrete 3-node payload. -/
theorem staircase_truncation_witness :
    (promptNodeLines [⟨"A".toList, "aaaa".toList⟩] =
        [nodeLine [⟨"A".toList, "aaaa".toList⟩] ⟨"A".toList, "aaaa".toList⟩]) ∧
    (∀ n ∈ [GNode.mk "A".toList "aaaa".toList],
        (nodeSnippet [⟨"A".toList, "aaaa".toList⟩] n).length ≤
          5000 / [GNode.mk "A".toList "aaaa".toList].length) ∧
    ([GNode.mk "A".toList "aaaa".toList].map
        (fun n => (nodeSnippet [⟨"A".toList, "aaaa".toList⟩] n).length)).sum ≤ 5000 :=
  staircase_truncation [⟨"A".toList, "aaaa".toList⟩] (by simp)

end Erudite
